import Mathlib

/-!
Verification of the causal-triple estimator in
`4.make.causal.graphs.from.corr.py`.

The whole program is the single function `calc_acyclic_causal_rel_3x3`.
We embed it shallowly: IEEE floats are idealized as exact rationals `ℚ`
(every rational is finite, so no NaN/Inf can arise; the claims under
study concern exact equalities, branch selection and range checks, which
the rational idealization captures), numpy matrices become functions out
of `Fin`, sequential element assignments become pointwise functional
updates, the `for pp in range(P)` loop becomes a `List.foldl` over
`List.finRange 6`, and the fatal `sys.exit` on a bad input becomes an
`Except.error` carrying the same data that the error message prints
(the offending parameter's name and value).
-/

namespace CausalRel

/-- The fatal input error of the range check: the printed message carries
the offending parameter's name (`s`) and value (`r`). -/
structure InputRangeError where
  name : String
  value : ℚ
deriving DecidableEq

/-- The input validation loop: walk `[(r13,"r13"), (r23,"r23"), (r12,"r12")]`
in order and fail on the first value with `np.abs(r) > 1.0`
(source lines 66-75). -/
def checkRange (r13 r23 r12 : ℚ) : Option InputRangeError :=
  ([(r13, "r13"), (r23, "r23"), (r12, "r12")]).findSome?
    (fun rv => if 1 < |rv.1| then some ⟨rv.2, rv.1⟩ else none)

/-- The nondirectional correlation matrix `R` (source lines 83-86):
a zero-initialized 3×3 matrix with the six symmetric off-diagonal
assignments `R[0,1]=R[1,0]=r12`, `R[1,2]=R[2,1]=r23`, `R[0,2]=R[2,0]=r13`;
the assigned cells are pairwise distinct, so the assignment sequence is
this case split. -/
def R (r13 r23 r12 : ℚ) : Fin 3 → Fin 3 → ℚ := fun a b =>
  if (a = 0 ∧ b = 1) ∨ (a = 1 ∧ b = 0) then r12
  else if (a = 1 ∧ b = 2) ∨ (a = 2 ∧ b = 1) then r23
  else if (a = 0 ∧ b = 2) ∨ (a = 2 ∧ b = 0) then r13
  else 0

/-- Forward permutation sub-matrix: `M1[ii,jj] = (jj + ii*2) % 3`
(source line 108, on a zero-initialized int matrix, so `+=` is `=`). -/
def M1 (i j : Fin 3) : Fin 3 :=
  ⟨(j.val + i.val * 2) % 3, Nat.mod_lt _ (by decide)⟩

/-- Mirror permutation sub-matrix: the source writes
`M2[jj,ii] = (jj + ii*2) % 3` (line 109), i.e. `M2[a,b] = (a + b*2) % 3`. -/
def M2 (i j : Fin 3) : Fin 3 :=
  ⟨(i.val + j.val * 2) % 3, Nat.mod_lt _ (by decide)⟩

/-- Directionality report string `S[ii][jj] = "roi_{ii+1} -> roi_{jj+1}"`
(source line 110). -/
def S (i j : Fin 3) : String :=
  "roi_" ++ toString (i.val + 1) ++ " -> roi_" ++ toString (j.val + 1)

/-- Single element assignment `T[r,c] = v` on the permutation-index table. -/
def setEntry (T : ℤ → Fin 3 → Fin 3) (r : ℤ) (c : Fin 3) (v : Fin 3) :
    ℤ → Fin 3 → Fin 3 :=
  fun r' c' => if r' = r ∧ c' = c then v else T r' c'

/-- The final 6×3 array `M` of permutation indices (source lines 113-118):
for each `ii, jj`, with `aa = (M1[ii,0]+M1[ii,2]-1)*(N-1)` and
`bb = (M2[ii,0]+M2[ii,2]-1)*(N-1)+1` (`N-1 = 2`), assign
`M[aa,jj] = M1[ii,jj]` and `M[bb,jj] = M2[ii,jj]`.  Row indices are
computed in `ℤ` exactly as the Python int arithmetic does. -/
def M : ℤ → Fin 3 → Fin 3 :=
  (List.finRange 3).foldl (fun T ii =>
    (List.finRange 3).foldl (fun T jj =>
      let aa : ℤ := (((M1 ii 0).val : ℤ) + ((M1 ii 2).val : ℤ) - 1) * 2
      let bb : ℤ := (((M2 ii 0).val : ℤ) + ((M2 ii 2).val : ℤ) - 1) * 2 + 1
      setEntry (setEntry T aa jj (M1 ii jj)) bb jj (M2 ii jj)) T)
    (fun _ _ => 0)

/-- Row `p`, column `c` of the permutation table: the loop reads
`ii,jj,kk = M[pp,:]` (source line 130). -/
def Mrow (p : Fin 6) (c : Fin 3) : Fin 3 := M (p.val : ℤ) c

/-- Single element assignment `T[p,a,b] = v` on the value tensor `C`. -/
def cSet (T : Fin 6 → Fin 3 → Fin 3 → ℚ) (p : Fin 6) (a b : Fin 3) (v : ℚ) :
    Fin 6 → Fin 3 → Fin 3 → ℚ :=
  fun p' a' b' => if p' = p ∧ a' = a ∧ b' = b then v else T p' a' b'

/-- Body of the per-permutation loop (source lines 127-150): with
`(ii,jj,kk) = M[pp,:]`, set the bridge edge `C[pp,ii,kk] = R[ii,kk]`,
compute `denom = 1.0 - R[ii,kk]**2`, and either apply the deconfounding
division (Python truthiness: `if denom` means `denom ≠ 0`) or zero both
derived edges. -/
def permStep (Rm : Fin 3 → Fin 3 → ℚ) (T : Fin 6 → Fin 3 → Fin 3 → ℚ)
    (pp : Fin 6) : Fin 6 → Fin 3 → Fin 3 → ℚ :=
  let i := Mrow pp 0
  let j := Mrow pp 1
  let k := Mrow pp 2
  let T1 := cSet T pp i k (Rm i k)
  let denom := 1 - Rm i k ^ 2
  if denom ≠ 0 then
    cSet (cSet T1 pp i j ((Rm i j - Rm i k * Rm k j) / denom)) pp k j
      ((Rm k j - Rm i k * Rm i j) / denom)
  else
    cSet (cSet T1 pp i j 0) pp k j 0

/-- The estimated-values tensor `C` after the whole `for pp in range(P)`
loop (`P = 6`), starting from the zero-initialized tensor of line 103. -/
def C (Rm : Fin 3 → Fin 3 → ℚ) : Fin 6 → Fin 3 → Fin 3 → ℚ :=
  (List.finRange 6).foldl (permStep Rm) (fun _ _ _ => 0)

/-- The three labels reported for one permutation `(i,j,k)`, in source
order: `S[ii][kk], S[ii][jj], S[kk][jj]`. -/
def permLabels (i j k : Fin 3) : List String := [S i k, S i j, S k j]

/-- The three values computed by one iteration of the loop for
permutation `(i,j,k)`, standalone (same arithmetic as `permStep`, read
off the cells it writes). -/
def permValues (Rm : Fin 3 → Fin 3 → ℚ) (i j k : Fin 3) : List ℚ :=
  let denom := 1 - Rm i k ^ 2
  [Rm i k,
   if denom ≠ 0 then (Rm i j - Rm i k * Rm k j) / denom else 0,
   if denom ≠ 0 then (Rm k j - Rm i k * Rm i j) / denom else 0]

/-- The whole function `calc_acyclic_causal_rel_3x3` (source lines
27-161): validate the inputs (fatal error on the first out-of-range
one), build `R`, run the 6-permutation loop filling `C`, and return the
labels and values read back for the last processed row `pp = 5`,
`(ii,jj,kk) = M[5,:]` (source lines 158-161). -/
def calc_acyclic_causal_rel_3x3 (r13 r23 r12 : ℚ) :
    Except InputRangeError (List String × List ℚ) :=
  match checkRange r13 r23 r12 with
  | some e => Except.error e
  | none =>
    let Rm := R r13 r23 r12
    let Cm := C Rm
    let i := Mrow 5 0
    let j := Mrow 5 1
    let k := Mrow 5 2
    Except.ok ([S i k, S i j, S k j], [Cm 5 i k, Cm 5 i j, Cm 5 k j])

/-- Literal form of the permutation table, to compare against `M`. -/
def MrowLit (p : Fin 6) (c : Fin 3) : Fin 3 :=
  match p.val, c.val with
  | 0, 0 => 1 | 0, 1 => 2 | 0, 2 => 0
  | 1, 0 => 0 | 1, 1 => 2 | 1, 2 => 1
  | 2, 0 => 0 | 2, 1 => 1 | 2, 2 => 2
  | 3, 0 => 2 | 3, 1 => 1 | 3, 2 => 0
  | 4, 0 => 2 | 4, 1 => 0 | 4, 2 => 1
  | 5, 0 => 1 | 5, 1 => 0 | 5, 2 => 2
  | _, _ => 0

theorem Mrow_eq_lit : ∀ p c, Mrow p c = MrowLit p c := by decide

theorem Mrow00 : Mrow 0 0 = 1 := by decide
theorem Mrow01 : Mrow 0 1 = 2 := by decide
theorem Mrow02 : Mrow 0 2 = 0 := by decide
theorem Mrow10 : Mrow 1 0 = 0 := by decide
theorem Mrow11 : Mrow 1 1 = 2 := by decide
theorem Mrow12 : Mrow 1 2 = 1 := by decide
theorem Mrow20 : Mrow 2 0 = 0 := by decide
theorem Mrow21 : Mrow 2 1 = 1 := by decide
theorem Mrow22 : Mrow 2 2 = 2 := by decide
theorem Mrow30 : Mrow 3 0 = 2 := by decide
theorem Mrow31 : Mrow 3 1 = 1 := by decide
theorem Mrow32 : Mrow 3 2 = 0 := by decide
theorem Mrow40 : Mrow 4 0 = 2 := by decide
theorem Mrow41 : Mrow 4 1 = 0 := by decide
theorem Mrow42 : Mrow 4 2 = 1 := by decide
theorem Mrow50 : Mrow 5 0 = 1 := by decide
theorem Mrow51 : Mrow 5 1 = 0 := by decide
theorem Mrow52 : Mrow 5 2 = 2 := by decide

theorem R00 (r13 r23 r12 : ℚ) : R r13 r23 r12 0 0 = 0 := rfl
theorem R01 (r13 r23 r12 : ℚ) : R r13 r23 r12 0 1 = r12 := rfl
theorem R02 (r13 r23 r12 : ℚ) : R r13 r23 r12 0 2 = r13 := rfl
theorem R10 (r13 r23 r12 : ℚ) : R r13 r23 r12 1 0 = r12 := rfl
theorem R11 (r13 r23 r12 : ℚ) : R r13 r23 r12 1 1 = 0 := rfl
theorem R12 (r13 r23 r12 : ℚ) : R r13 r23 r12 1 2 = r23 := rfl
theorem R20 (r13 r23 r12 : ℚ) : R r13 r23 r12 2 0 = r13 := rfl
theorem R21 (r13 r23 r12 : ℚ) : R r13 r23 r12 2 1 = r23 := rfl
theorem R22 (r13 r23 r12 : ℚ) : R r13 r23 r12 2 2 = 0 := rfl

/-- In every row of the table the three indices are pairwise distinct. -/
theorem Mrow_distinct : ∀ p : Fin 6,
    Mrow p 0 ≠ Mrow p 1 ∧ Mrow p 0 ≠ Mrow p 2 ∧ Mrow p 1 ≠ Mrow p 2 := by
  decide

/-- A loop iteration for row `q` leaves every other row of `C` unchanged. -/
theorem permStep_ne (Rm : Fin 3 → Fin 3 → ℚ) (T : Fin 6 → Fin 3 → Fin 3 → ℚ)
    (q p : Fin 6) (a b : Fin 3) (hpq : p ≠ q) :
    permStep Rm T q p a b = T p a b := by
  unfold permStep
  split <;> simp [cSet, hpq]

/-- Folding loop iterations for rows not containing `p` leaves row `p`
unchanged. -/
theorem foldl_permStep_ne (Rm : Fin 3 → Fin 3 → ℚ) (l : List (Fin 6))
    (T : Fin 6 → Fin 3 → Fin 3 → ℚ) (p : Fin 6) (a b : Fin 3)
    (hl : p ∉ l) :
    (l.foldl (permStep Rm) T) p a b = T p a b := by
  induction l generalizing T with
  | nil => rfl
  | cons q l ih =>
      have hpq : p ≠ q := by
        intro h; exact hl (h ▸ List.mem_cons_self q l)
      have hpl : p ∉ l := fun h => hl (List.mem_cons_of_mem q h)
      rw [List.foldl_cons, ih _ hpl, permStep_ne _ _ _ _ _ _ hpq]

/-- Iteration `p` writes the bridge cell `(p, i, k)` with `R[i,k]`,
whatever the incoming tensor held. -/
theorem permStep_self_bridge (Rm : Fin 3 → Fin 3 → ℚ)
    (T : Fin 6 → Fin 3 → Fin 3 → ℚ) (p : Fin 6) :
    permStep Rm T p p (Mrow p 0) (Mrow p 2) = Rm (Mrow p 0) (Mrow p 2) := by
  obtain ⟨h01, h02, h12⟩ := Mrow_distinct p
  unfold permStep
  split <;> simp [cSet, h01, h02, h12, Ne.symm h12, Ne.symm h01, Ne.symm h02]

/-- Iteration `p` writes the derived cell `(p, i, j)` with the division
branch if `denom ≠ 0` and with `0` otherwise. -/
theorem permStep_self_ij (Rm : Fin 3 → Fin 3 → ℚ)
    (T : Fin 6 → Fin 3 → Fin 3 → ℚ) (p : Fin 6) :
    permStep Rm T p p (Mrow p 0) (Mrow p 1) =
      (if 1 - Rm (Mrow p 0) (Mrow p 2) ^ 2 ≠ 0 then
        (Rm (Mrow p 0) (Mrow p 1) -
          Rm (Mrow p 0) (Mrow p 2) * Rm (Mrow p 2) (Mrow p 1)) /
          (1 - Rm (Mrow p 0) (Mrow p 2) ^ 2)
      else 0) := by
  obtain ⟨h01, h02, h12⟩ := Mrow_distinct p
  unfold permStep
  split <;> simp [cSet, h01, h02, h12, Ne.symm h12, Ne.symm h01, Ne.symm h02]

/-- Iteration `p` writes the derived cell `(p, k, j)` with the division
branch if `denom ≠ 0` and with `0` otherwise. -/
theorem permStep_self_kj (Rm : Fin 3 → Fin 3 → ℚ)
    (T : Fin 6 → Fin 3 → Fin 3 → ℚ) (p : Fin 6) :
    permStep Rm T p p (Mrow p 2) (Mrow p 1) =
      (if 1 - Rm (Mrow p 0) (Mrow p 2) ^ 2 ≠ 0 then
        (Rm (Mrow p 2) (Mrow p 1) -
          Rm (Mrow p 0) (Mrow p 2) * Rm (Mrow p 0) (Mrow p 1)) /
          (1 - Rm (Mrow p 0) (Mrow p 2) ^ 2)
      else 0) := by
  obtain ⟨h01, h02, h12⟩ := Mrow_distinct p
  unfold permStep
  split <;> simp [cSet, h01, h02, h12, Ne.symm h12, Ne.symm h01, Ne.symm h02]

/-- Reading any cell of row `p` out of the finished tensor is the same as
reading it out of iteration `p` applied to the partial fold: later
iterations never touch row `p`. -/
theorem C_eq_step (Rm : Fin 3 → Fin 3 → ℚ) (p : Fin 6) (a b : Fin 3) :
    C Rm p a b = permStep Rm
      (((List.finRange 6).take p.val).foldl (permStep Rm)
        (fun _ _ _ => 0)) p p a b := by
  have hmem : List.finRange 6 =
      (List.finRange 6).take p.val ++
        p :: (List.finRange 6).drop (p.val + 1) := by
    fin_cases p <;> decide
  have hdrop : p ∉ (List.finRange 6).drop (p.val + 1) := by
    fin_cases p <;> decide
  unfold C
  conv_lhs => rw [hmem]
  rw [List.foldl_append, List.foldl_cons,
    foldl_permStep_ne _ _ _ _ _ _ hdrop]

/-- After the whole loop, the bridge cell of row `p` holds `R[i,k]`. -/
theorem C_bridge (Rm : Fin 3 → Fin 3 → ℚ) (p : Fin 6) :
    C Rm p (Mrow p 0) (Mrow p 2) = Rm (Mrow p 0) (Mrow p 2) := by
  rw [C_eq_step, permStep_self_bridge]

/-- After the whole loop, the `(i,j)` cell of row `p` holds the branch on
`denom` taken by iteration `p`. -/
theorem C_ij (Rm : Fin 3 → Fin 3 → ℚ) (p : Fin 6) :
    C Rm p (Mrow p 0) (Mrow p 1) =
      (if 1 - Rm (Mrow p 0) (Mrow p 2) ^ 2 ≠ 0 then
        (Rm (Mrow p 0) (Mrow p 1) -
          Rm (Mrow p 0) (Mrow p 2) * Rm (Mrow p 2) (Mrow p 1)) /
          (1 - Rm (Mrow p 0) (Mrow p 2) ^ 2)
      else 0) := by
  rw [C_eq_step, permStep_self_ij]

/-- After the whole loop, the `(k,j)` cell of row `p` holds the branch on
`denom` taken by iteration `p`. -/
theorem C_kj (Rm : Fin 3 → Fin 3 → ℚ) (p : Fin 6) :
    C Rm p (Mrow p 2) (Mrow p 1) =
      (if 1 - Rm (Mrow p 0) (Mrow p 2) ^ 2 ≠ 0 then
        (Rm (Mrow p 2) (Mrow p 1) -
          Rm (Mrow p 0) (Mrow p 2) * Rm (Mrow p 0) (Mrow p 1)) /
          (1 - Rm (Mrow p 0) (Mrow p 2) ^ 2)
      else 0) := by
  rw [C_eq_step, permStep_self_kj]

/-- Reading the three cells written for row `p` back out of the finished
tensor gives exactly the standalone per-permutation values. -/
theorem C_row (Rm : Fin 3 → Fin 3 → ℚ) (p : Fin 6) :
    [C Rm p (Mrow p 0) (Mrow p 2),
     C Rm p (Mrow p 0) (Mrow p 1),
     C Rm p (Mrow p 2) (Mrow p 1)] =
      permValues Rm (Mrow p 0) (Mrow p 1) (Mrow p 2) := by
  rw [C_bridge, C_ij, C_kj]; rfl

/-- The validation loop, written out: it reports the first of
`r13, r23, r12` (in that order) whose absolute value exceeds `1`. -/
theorem checkRange_eq (r13 r23 r12 : ℚ) :
    checkRange r13 r23 r12 =
      (if 1 < |r13| then some ⟨"r13", r13⟩
       else if 1 < |r23| then some ⟨"r23", r23⟩
       else if 1 < |r12| then some ⟨"r12", r12⟩
       else none) := by
  simp only [checkRange, List.findSome?_cons, List.findSome?_nil]
  split_ifs <;> rfl

/-- `calc_acyclic_causal_rel_3x3` fails with `e` exactly when the range
check reports `e`. -/
theorem calc_error_iff (r13 r23 r12 : ℚ) (e : InputRangeError) :
    calc_acyclic_causal_rel_3x3 r13 r23 r12 = Except.error e ↔
      checkRange r13 r23 r12 = some e := by
  unfold calc_acyclic_causal_rel_3x3
  cases h : checkRange r13 r23 r12 <;> simp

/-- On valid input the function returns the labels and values of the last
row, `p = 5`, of the permutation table. -/
theorem calc_valid_eq (r13 r23 r12 : ℚ)
    (h1 : |r13| ≤ 1) (h2 : |r23| ≤ 1) (h3 : |r12| ≤ 1) :
    calc_acyclic_causal_rel_3x3 r13 r23 r12 =
      Except.ok (permLabels (Mrow 5 0) (Mrow 5 1) (Mrow 5 2),
        permValues (R r13 r23 r12) (Mrow 5 0) (Mrow 5 1) (Mrow 5 2)) := by
  have hc : checkRange r13 r23 r12 = none := by
    rw [checkRange_eq]
    simp [not_lt.2 h1, not_lt.2 h2, not_lt.2 h3]
  unfold calc_acyclic_causal_rel_3x3
  rw [hc, ← C_row]
  rfl

/-- C1: the estimate fails with an `InputRangeError` iff some input has
absolute value strictly greater than 1 (boundary values ±1 accepted); the
error names the offending parameter and its value; and on any valid input
the call succeeds with exactly 3 labels and 3 values (all values are
rationals, hence finite — the embedding has no NaN/Inf, and the
degenerate-denominator branch keeps every division well defined).  The
check is the first thing `calc_acyclic_causal_rel_3x3` does, before any
matrix or permutation computation. -/
theorem calc_range_check_iff (r13 r23 r12 : ℚ) :
    ((∃ e, calc_acyclic_causal_rel_3x3 r13 r23 r12 = Except.error e) ↔
      (1 < |r13| ∨ 1 < |r23| ∨ 1 < |r12|))
  ∧ (∀ e, calc_acyclic_causal_rel_3x3 r13 r23 r12 = Except.error e →
      1 < |e.value| ∧
        (e.name, e.value) ∈ [("r13", r13), ("r23", r23), ("r12", r12)])
  ∧ (|r13| ≤ 1 → |r23| ≤ 1 → |r12| ≤ 1 →
      ∃ ls vs, calc_acyclic_causal_rel_3x3 r13 r23 r12 = Except.ok (ls, vs)
        ∧ ls.length = 3 ∧ vs.length = 3) := by
  refine ⟨⟨?_, ?_⟩, ?_, ?_⟩
  · rintro ⟨e, he⟩
    rw [calc_error_iff, checkRange_eq] at he
    split_ifs at he with hh1 hh2 hh3
    · exact Or.inl hh1
    · exact Or.inr (Or.inl hh2)
    · exact Or.inr (Or.inr hh3)
  · intro h
    by_cases hh1 : 1 < |r13|
    · exact ⟨⟨"r13", r13⟩, by rw [calc_error_iff, checkRange_eq, if_pos hh1]⟩
    by_cases hh2 : 1 < |r23|
    · exact ⟨⟨"r23", r23⟩,
        by rw [calc_error_iff, checkRange_eq, if_neg hh1, if_pos hh2]⟩
    by_cases hh3 : 1 < |r12|
    · exact ⟨⟨"r12", r12⟩,
        by rw [calc_error_iff, checkRange_eq, if_neg hh1, if_neg hh2,
          if_pos hh3]⟩
    · rcases h with h | h | h <;> contradiction
  · intro e he
    rw [calc_error_iff, checkRange_eq] at he
    split_ifs at he with hh1 hh2 hh3
    · obtain rfl : (⟨"r13", r13⟩ : InputRangeError) = e := by injection he
      exact ⟨hh1, by simp⟩
    · obtain rfl : (⟨"r23", r23⟩ : InputRangeError) = e := by injection he
      exact ⟨hh2, by simp⟩
    · obtain rfl : (⟨"r12", r12⟩ : InputRangeError) = e := by injection he
      exact ⟨hh3, by simp⟩
  · intro h1 h2 h3
    exact ⟨_, _, calc_valid_eq r13 r23 r12 h1 h2 h3, rfl, rfl⟩

theorem calc_range_check_iff_witness :
    ∃ ls vs, calc_acyclic_causal_rel_3x3 0 0 0 = Except.ok (ls, vs)
      ∧ ls.length = 3 ∧ vs.length = 3 :=
  (calc_range_check_iff 0 0 0).2.2 (by norm_num) (by norm_num) (by norm_num)

/-- C2: on valid input the function returns exactly one result set — the
3 labels and 3 values of the last permutation processed, which is row 5
(the final row) of the 6-row table: the loop runs over
`List.finRange 6`, whose last element is `5`. -/
theorem calc_returns_last_permutation (r13 r23 r12 : ℚ)
    (h1 : |r13| ≤ 1) (h2 : |r23| ≤ 1) (h3 : |r12| ≤ 1) :
    calc_acyclic_causal_rel_3x3 r13 r23 r12 =
      Except.ok (permLabels (Mrow 5 0) (Mrow 5 1) (Mrow 5 2),
        permValues (R r13 r23 r12) (Mrow 5 0) (Mrow 5 1) (Mrow 5 2))
  ∧ (List.finRange 6).getLast? = some 5 :=
  ⟨calc_valid_eq r13 r23 r12 h1 h2 h3, by decide⟩

theorem calc_returns_last_permutation_witness :
    calc_acyclic_causal_rel_3x3 0 0 0 =
      Except.ok (permLabels (Mrow 5 0) (Mrow 5 1) (Mrow 5 2),
        permValues (R 0 0 0) (Mrow 5 0) (Mrow 5 1) (Mrow 5 2))
  ∧ (List.finRange 6).getLast? = some 5 :=
  calc_returns_last_permutation 0 0 0 (by norm_num) (by norm_num)
    (by norm_num)

/-- C3: for every permutation row `p` with nonzero denominator
`denom = 1 - R[i,k]^2`, the two derived edges hold the deconfounding
formulas `(R[i,j] - R[i,k]*R[k,j])/denom` and
`(R[k,j] - R[i,k]*R[i,j])/denom`. -/
theorem derived_edges_deconfounding (r13 r23 r12 : ℚ) (p : Fin 6)
    (hd : 1 - R r13 r23 r12 (Mrow p 0) (Mrow p 2) ^ 2 ≠ 0) :
    C (R r13 r23 r12) p (Mrow p 0) (Mrow p 1) =
      (R r13 r23 r12 (Mrow p 0) (Mrow p 1) -
        R r13 r23 r12 (Mrow p 0) (Mrow p 2) *
          R r13 r23 r12 (Mrow p 2) (Mrow p 1)) /
        (1 - R r13 r23 r12 (Mrow p 0) (Mrow p 2) ^ 2)
  ∧ C (R r13 r23 r12) p (Mrow p 2) (Mrow p 1) =
      (R r13 r23 r12 (Mrow p 2) (Mrow p 1) -
        R r13 r23 r12 (Mrow p 0) (Mrow p 2) *
          R r13 r23 r12 (Mrow p 0) (Mrow p 1)) /
        (1 - R r13 r23 r12 (Mrow p 0) (Mrow p 2) ^ 2) :=
  ⟨by rw [C_ij, if_pos hd], by rw [C_kj, if_pos hd]⟩

theorem derived_edges_deconfounding_witness :
    C (R 0 0 0) 0 (Mrow 0 0) (Mrow 0 1) =
      (R 0 0 0 (Mrow 0 0) (Mrow 0 1) -
        R 0 0 0 (Mrow 0 0) (Mrow 0 2) * R 0 0 0 (Mrow 0 2) (Mrow 0 1)) /
        (1 - R 0 0 0 (Mrow 0 0) (Mrow 0 2) ^ 2) :=
  (derived_edges_deconfounding 0 0 0 0 (by
    rw [Mrow00, Mrow02, R10]; norm_num)).1

/-- C4: for every valid input and every one of the 6 permutations, the
bridge edge cell of the tensor holds exactly the raw matrix entry
`R[i,k]`, with no adjustment. -/
theorem bridge_edge_identity (r13 r23 r12 : ℚ)
    (h1 : |r13| ≤ 1) (h2 : |r23| ≤ 1) (h3 : |r12| ≤ 1) (p : Fin 6) :
    C (R r13 r23 r12) p (Mrow p 0) (Mrow p 2) =
      R r13 r23 r12 (Mrow p 0) (Mrow p 2) :=
  C_bridge _ p

theorem bridge_edge_identity_witness :
    C (R 0 (1/2) 0) 5 (Mrow 5 0) (Mrow 5 2) =
      R 0 (1/2) 0 (Mrow 5 0) (Mrow 5 2) :=
  bridge_edge_identity 0 (1/2) 0 (by norm_num) (by norm_num [abs_le])
    (by norm_num) 5

/-- C5: for any permutation row `p` whose denominator `1 - R[i,k]^2` is
exactly zero, both derived edges are exactly `0` — the source's `else`
branch assigns `0.0` to both cells and performs no division, so no
infinity or NaN can arise there. -/
theorem degenerate_denominator_zero (r13 r23 r12 : ℚ) (p : Fin 6)
    (hd : 1 - R r13 r23 r12 (Mrow p 0) (Mrow p 2) ^ 2 = 0) :
    C (R r13 r23 r12) p (Mrow p 0) (Mrow p 1) = 0
  ∧ C (R r13 r23 r12) p (Mrow p 2) (Mrow p 1) = 0 :=
  ⟨by rw [C_ij, if_neg (not_not_intro hd)],
   by rw [C_kj, if_neg (not_not_intro hd)]⟩

theorem degenerate_denominator_zero_witness :
    C (R 1 0 0) 2 (Mrow 2 0) (Mrow 2 1) = 0
  ∧ C (R 1 0 0) 2 (Mrow 2 2) (Mrow 2 1) = 0 :=
  degenerate_denominator_zero 1 0 0 2 (by
    rw [Mrow20, Mrow22, R02]; norm_num)

/-- C6: the 6 rows of the permutation table are pairwise distinct ordered
triples, each row consists of 3 pairwise-distinct indices of `Fin 3`, and
each ordered (giver, bridge) pair `(a,b)` with `a ≠ b` occurs in exactly
one row — hence each unordered pair occurs as the bridge pair exactly
twice, once per direction. -/
theorem permutation_completeness :
    (∀ p q : Fin 6, p ≠ q →
      ¬(Mrow p 0 = Mrow q 0 ∧ Mrow p 1 = Mrow q 1 ∧ Mrow p 2 = Mrow q 2))
  ∧ (∀ p : Fin 6,
      Mrow p 0 ≠ Mrow p 1 ∧ Mrow p 0 ≠ Mrow p 2 ∧ Mrow p 1 ≠ Mrow p 2)
  ∧ (∀ a b : Fin 3, a ≠ b →
      ((List.finRange 6).countP
        (fun q => (Mrow q 0 == a) && (Mrow q 2 == b))) = 1) := by
  decide

/-- C7: the assembled matrix is symmetric with zero diagonal, carries
`r12, r23, r13` in the specified cells, and under valid input every
off-diagonal magnitude is at most 1. -/
theorem R_matrix_invariants (r13 r23 r12 : ℚ)
    (h1 : |r13| ≤ 1) (h2 : |r23| ≤ 1) (h3 : |r12| ≤ 1) :
    (∀ a b : Fin 3, R r13 r23 r12 a b = R r13 r23 r12 b a)
  ∧ (∀ a : Fin 3, R r13 r23 r12 a a = 0)
  ∧ R r13 r23 r12 0 1 = r12 ∧ R r13 r23 r12 1 2 = r23
  ∧ R r13 r23 r12 0 2 = r13
  ∧ (∀ a b : Fin 3, a ≠ b → |R r13 r23 r12 a b| ≤ 1) := by
  refine ⟨?_, ?_, rfl, rfl, rfl, ?_⟩
  · intro a b; fin_cases a <;> fin_cases b <;> rfl
  · intro a; fin_cases a <;> rfl
  · intro a b hab; fin_cases a <;> fin_cases b <;> simp_all [R]

theorem R_matrix_invariants_witness :
    R (1/2) (1/3) (1/4) 0 1 = 1/4 :=
  (R_matrix_invariants (1/2) (1/3) (1/4) (by norm_num [abs_le])
    (by norm_num [abs_le]) (by norm_num [abs_le])).2.2.1

/-- C8 counterexample: the claim says the bridge node (third component of
the forward row for base `b`) equals `b`; at `b = 0` the third component
is `M1[0,2] = (2 + 0) % 3 = 2 ≠ 0`. -/
theorem forward_perm_bridge_counterexample :
    ¬ (M1 0 2 = (0 : Fin 3)) := by decide

/-- C8 (amended): for each base `b`, the forward row is
`M1[b,c] = (c + 2*b) % 3` and, read across `c = 0,1,2`, appears as one
ordered orientation row of the final table; but the bridge node (the
third component) equals `(2 + 2*b) % 3 = 2 - b`, not `b` (they agree only
at `b = 1`). -/
theorem forward_perm_construction :
    (∀ b c : Fin 3, (M1 b c).val = (c.val + 2 * b.val) % 3)
  ∧ (∀ b : Fin 3, (M1 b 2).val = (2 + 2 * b.val) % 3)
  ∧ (∀ b : Fin 3, (M1 b 2).val = 2 - b.val)
  ∧ (∀ b : Fin 3, ∃ p : Fin 6, ∀ c : Fin 3, Mrow p c = M1 b c) := by
  decide

/-- C9: on any valid input, the last processed row is the fixed triple
`(1,0,2)`, the returned labels are the constant strings
`"roi_2 -> roi_3", "roi_2 -> roi_1", "roi_3 -> roi_1"` independent of the
input values, and the first returned value (the bridge edge) is `r23`. -/
theorem last_permutation_fixed (r13 r23 r12 : ℚ)
    (h1 : |r13| ≤ 1) (h2 : |r23| ≤ 1) (h3 : |r12| ≤ 1) :
    (Mrow 5 0 = 1 ∧ Mrow 5 1 = 0 ∧ Mrow 5 2 = 2)
  ∧ ∃ v1 v2 : ℚ, calc_acyclic_causal_rel_3x3 r13 r23 r12 =
      Except.ok (["roi_2 -> roi_3", "roi_2 -> roi_1", "roi_3 -> roi_1"],
        [r23, v1, v2]) := by
  refine ⟨by decide, ?_⟩
  have h := calc_valid_eq r13 r23 r12 h1 h2 h3
  rw [Mrow50, Mrow51, Mrow52] at h
  exact ⟨_, _, h⟩

theorem last_permutation_fixed_witness :
    (Mrow 5 0 = 1 ∧ Mrow 5 1 = 0 ∧ Mrow 5 2 = 2)
  ∧ ∃ v1 v2 : ℚ, calc_acyclic_causal_rel_3x3 0 0 0 =
      Except.ok (["roi_2 -> roi_3", "roi_2 -> roi_1", "roi_3 -> roi_1"],
        [0, v1, v2]) :=
  last_permutation_fixed 0 0 0 (by norm_num) (by norm_num) (by norm_num)

/-- C10: at the concrete input `r13 = 4/5, r23 = 3/4, r12 = 3/5`
(0.8, 0.75, 0.6), every one of the 6 per-permutation denominators is
strictly positive, every derived edge is the division-branch value, and
the call returns the explicit finite result below; as a pure function of
its arguments, repeated evaluation necessarily yields this same value. -/
theorem fig9C_division_branch :
    (∀ p : Fin 6,
      0 < 1 - R (4/5) (3/4) (3/5) (Mrow p 0) (Mrow p 2) ^ 2)
  ∧ (∀ p : Fin 6,
      C (R (4/5) (3/4) (3/5)) p (Mrow p 0) (Mrow p 1) =
        (R (4/5) (3/4) (3/5) (Mrow p 0) (Mrow p 1) -
          R (4/5) (3/4) (3/5) (Mrow p 0) (Mrow p 2) *
            R (4/5) (3/4) (3/5) (Mrow p 2) (Mrow p 1)) /
          (1 - R (4/5) (3/4) (3/5) (Mrow p 0) (Mrow p 2) ^ 2)
      ∧ C (R (4/5) (3/4) (3/5)) p (Mrow p 2) (Mrow p 1) =
        (R (4/5) (3/4) (3/5) (Mrow p 2) (Mrow p 1) -
          R (4/5) (3/4) (3/5) (Mrow p 0) (Mrow p 2) *
            R (4/5) (3/4) (3/5) (Mrow p 0) (Mrow p 1)) /
          (1 - R (4/5) (3/4) (3/5) (Mrow p 0) (Mrow p 2) ^ 2))
  ∧ calc_acyclic_causal_rel_3x3 (4/5) (3/4) (3/5) =
      Except.ok (["roi_2 -> roi_3", "roi_2 -> roi_1", "roi_3 -> roi_1"],
        [3/4, 0, 4/5]) := by
  have hpos : ∀ p : Fin 6,
      0 < 1 - R (4/5) (3/4) (3/5) (Mrow p 0) (Mrow p 2) ^ 2 := by
    intro p
    fin_cases p
    · show 0 < 1 - R (4/5) (3/4) (3/5) (Mrow 0 0) (Mrow 0 2) ^ 2
      rw [Mrow00, Mrow02, R10]; norm_num
    · show 0 < 1 - R (4/5) (3/4) (3/5) (Mrow 1 0) (Mrow 1 2) ^ 2
      rw [Mrow10, Mrow12, R01]; norm_num
    · show 0 < 1 - R (4/5) (3/4) (3/5) (Mrow 2 0) (Mrow 2 2) ^ 2
      rw [Mrow20, Mrow22, R02]; norm_num
    · show 0 < 1 - R (4/5) (3/4) (3/5) (Mrow 3 0) (Mrow 3 2) ^ 2
      rw [Mrow30, Mrow32, R20]; norm_num
    · show 0 < 1 - R (4/5) (3/4) (3/5) (Mrow 4 0) (Mrow 4 2) ^ 2
      rw [Mrow40, Mrow42, R21]; norm_num
    · show 0 < 1 - R (4/5) (3/4) (3/5) (Mrow 5 0) (Mrow 5 2) ^ 2
      rw [Mrow50, Mrow52, R12]; norm_num
  refine ⟨hpos, ?_, ?_⟩
  · intro p
    have hd : 1 - R (4/5) (3/4) (3/5) (Mrow p 0) (Mrow p 2) ^ 2 ≠ 0 :=
      ne_of_gt (hpos p)
    exact ⟨by rw [C_ij, if_pos hd], by rw [C_kj, if_pos hd]⟩
  · rw [calc_valid_eq (4/5) (3/4) (3/5) (by norm_num [abs_le])
      (by norm_num [abs_le]) (by norm_num [abs_le]), Mrow50, Mrow51, Mrow52]
    have hne : (1 : ℚ) - (3/4) ^ 2 ≠ 0 := by norm_num
    refine congrArg Except.ok (Prod.ext ?_ ?_)
    · rfl
    · simp only [permValues, R10, R12, R20]
      rw [if_pos hne, if_pos hne]
      norm_num

end CausalRel
